import Mathlib

/-!
Shallow embedding of the construction-time computation and of the per-cycle
control pipelines of `litedram/phy/s7ddrphy.py` (a 1:4 / 1:2 frequency-ratio
DDR2/DDR3 PHY), together with proofs about the repository's specification
claims.

Conventions:
- Python floats are modelled as exact rationals (ℚ); every comparison the code
  performs on them is exact at the values involved.
- Python `int` is modelled as ℤ (or ℕ where the source value is a count);
  Python `%` with a positive modulus coincides with `Int.emod`.
- A Python function that can raise is modelled with `Option`, `none` standing
  for any raised exception.
- Synchronous registers are modelled by explicit state passing: a `step`
  function maps the state during cycle `t` and the inputs during cycle `t` to
  the state during cycle `t + 1`.
-/

/-- Frequency → (cl, cwl) table for DDR2, in the source's insertion order
(the `f_to_cl_cwl` `OrderedDict` built in `get_cl_cw`).  Frequencies are in Hz,
as exact rationals; the `677e6` entry is as written in the source. -/
def ddr2_table : List (ℚ × ℕ × ℕ) :=
  [(400000000, (3, 2)), (533000000, (4, 3)), (677000000, (5, 4)),
   (800000000, (6, 5)), (1066000000, (7, 5))]

/-- Frequency → (cl, cwl) table for DDR3, in the source's insertion order. -/
def ddr3_table : List (ℚ × ℕ × ℕ) :=
  [(800000000, (6, 5)), (1066000000, (7, 6)), (1333000000, (10, 7)),
   (1600000000, (11, 8))]

/-- The scan loop of `get_cl_cw`:
`for f, (cl, cwl) in f_to_cl_cwl.items(): if tck >= 2/f: return cl, cwl`,
falling through to `raise ValueError` (`none`). -/
def scan_cl_cwl (tck : ℚ) : List (ℚ × ℕ × ℕ) → Option (ℕ × ℕ)
  | [] => none
  | (f, clcwl) :: rest => if 2 / f ≤ tck then some clcwl else scan_cl_cwl tck rest

/-- `get_cl_cw(memtype, tck)`.  `none` models both `raise ValueError` paths
(unknown memtype, and no table entry satisfying `tck >= 2/f`). -/
def get_cl_cw (memtype : String) (tck : ℚ) : Option (ℕ × ℕ) :=
  if memtype = "DDR2" then scan_cl_cwl tck ddr2_table
  else if memtype = "DDR3" then scan_cl_cwl tck ddr3_table
  else none

/-- `get_sys_latency(nphases, cas_latency) = math.ceil(cas_latency/nphases)`.
The division is exact in ℚ, so `math.ceil` is the rational ceiling. -/
def get_sys_latency (nphases cas_latency : ℕ) : ℤ :=
  ⌈(cas_latency : ℚ) / (nphases : ℚ)⌉

/-- `get_sys_phases(nphases, sys_latency, cas_latency)`, returning
`(cmd_phase, dat_phase)` in the source's order. -/
def get_sys_phases (nphases : ℕ) (sys_latency : ℤ) (cas_latency : ℕ) : ℤ × ℤ :=
  let dat_phase : ℤ := sys_latency * nphases - cas_latency
  let cmd_phase : ℤ := (dat_phase - 1) % nphases
  (cmd_phase, dat_phase)

/-- The fields of the `PhySettings` value built in `S7DDRPHY.__init__` that the
claims are about. -/
structure PhySettings where
  memtype : String
  nphases : ℕ
  rdphase : ℤ
  wrphase : ℤ
  rdcmdphase : ℤ
  wrcmdphase : ℤ
  cl : ℕ
  cwl : ℕ
  read_latency : ℤ
  write_latency : ℤ
  deriving Repr, DecidableEq

/-- The `iodelay_tap_average` dict lookup of `S7DDRPHY.__init__`; `none`
models the `KeyError` raised for a key outside {200e6, 300e6, 400e6}. -/
def iodelay_tap_average (iodelay_clk_freq : ℚ) : Option ℚ :=
  if iodelay_clk_freq = 200000000 then some (78 / 1000000000000)
  else if iodelay_clk_freq = 300000000 then some (52 / 1000000000000)
  else if iodelay_clk_freq = 400000000 then some (39 / 1000000000000)
  else none

/-- The construction-time computation of `S7DDRPHY.__init__`, in source order:
the `assert not (memtype == "DDR3" and nphases == 2)`, then
`tck = 2/(2*nphases*sys_clk_freq)`, the `iodelay_tap_average[iodelay_clk_freq]`
lookup, `get_cl_cw`, the latency/phase computations and the `PhySettings`
value.  `none` models any raised exception. -/
def s7ddrphy_settings (memtype : String) (nphases : ℕ)
    (sys_clk_freq iodelay_clk_freq : ℚ) : Option PhySettings :=
  if memtype = "DDR3" ∧ nphases = 2 then none
  else
    let tck : ℚ := 2 / (2 * nphases * sys_clk_freq)
    match iodelay_tap_average iodelay_clk_freq with
    | none => none
    | some _ =>
      match get_cl_cw memtype tck with
      | none => none
      | some (cl, cwl) =>
        let cl_sys_latency := get_sys_latency nphases cl
        let cwl_sys_latency := get_sys_latency nphases cwl
        let rdp := get_sys_phases nphases cl_sys_latency cl
        let wrp := get_sys_phases nphases cwl_sys_latency cwl
        some {
          memtype := memtype
          nphases := nphases
          rdphase := rdp.2
          wrphase := wrp.2
          rdcmdphase := rdp.1
          wrcmdphase := wrp.1
          cl := cl
          cwl := cwl
          read_latency := 2 + cl_sys_latency + 2 + 3 - 1
          write_latency := cwl_sys_latency }

section ClaimOneTwo

/-- `scan_cl_cwl` returns the first table entry satisfying `tck >= 2/f`. -/
lemma scan_cl_cwl_eq_find (tck : ℚ) (l : List (ℚ × ℕ × ℕ)) :
    scan_cl_cwl tck l = (l.find? (fun e => decide (2 / e.1 ≤ tck))).map (·.2) := by
  induction l with
  | nil => rfl
  | cons e rest ih =>
    obtain ⟨f, clcwl⟩ := e
    by_cases h : 2 / f ≤ tck
    · simp [scan_cl_cwl, List.find?, h]
    · simp [scan_cl_cwl, List.find?, h, ih]

/-- Claim C1: `get_cl_cw` scans each family table in its stored order and returns
the `(cl, cwl)` of the first entry `f` with `tck ≥ 2/f`; both tables are
sorted in strictly ascending minimum-frequency order (so the first match is
the lowest qualifying speed bin); and for family "DDR3" with any clock period
`tck ≥ 2.5 ns = 1/400000000 s` the result is `(6, 5)`. -/
theorem C1_get_cl_cw_first_match :
    (∀ tck : ℚ, get_cl_cw "DDR2" tck
        = (ddr2_table.find? (fun e => decide (2 / e.1 ≤ tck))).map (·.2)) ∧
    (∀ tck : ℚ, get_cl_cw "DDR3" tck
        = (ddr3_table.find? (fun e => decide (2 / e.1 ≤ tck))).map (·.2)) ∧
    ddr2_table.Chain' (fun a b => a.1 < b.1) ∧
    ddr3_table.Chain' (fun a b => a.1 < b.1) ∧
    (∀ tck : ℚ, 1 / 400000000 ≤ tck → get_cl_cw "DDR3" tck = some (6, 5)) := by
  refine ⟨fun tck => ?_, fun tck => ?_, ?_, ?_, fun tck h => ?_⟩
  · rw [get_cl_cw, if_pos rfl, scan_cl_cwl_eq_find]
  · rw [get_cl_cw, if_neg (by decide), if_pos rfl, scan_cl_cwl_eq_find]
  · norm_num [ddr2_table, List.chain'_cons, List.chain'_singleton]
  · norm_num [ddr3_table, List.chain'_cons, List.chain'_singleton]
  · have h' : (2 : ℚ) / 800000000 ≤ tck := by
      calc (2 : ℚ) / 800000000 = 1 / 400000000 := by norm_num
        _ ≤ tck := h
    simp [get_cl_cw, ddr3_table, scan_cl_cwl, h']

/-- Witness for C1 at the concrete clock period 10 ns. -/
theorem C1_witness : get_cl_cw "DDR3" (1 / 100000000) = some (6, 5) :=
  C1_get_cl_cw_first_match.2.2.2.2 (1 / 100000000) (by norm_num)

/-- Claim C2: For N ∈ {2, 4} and cas latency L ≥ 1, `get_sys_latency N L` is the
ceiling of L/N (equivalently the natural number `(L + N - 1) / N`), and
`get_sys_phases` returns `dat_phase = sys_latency*N - L` together with
`cmd_phase = (dat_phase - 1) mod N`. -/
theorem C2_latency_planner (N L : ℕ) (hN : N = 2 ∨ N = 4) (hL : 1 ≤ L) :
    get_sys_latency N L = ⌈(L : ℚ) / (N : ℚ)⌉ ∧
    get_sys_latency N L = ((L + N - 1) / N : ℕ) ∧
    (∀ s : ℤ, get_sys_phases N s L = ((s * N - L - 1) % N, s * N - L)) := by
  have hN0 : 0 < N := by rcases hN with h | h <;> omega
  have hNQ : (0 : ℚ) < (N : ℚ) := by exact_mod_cast hN0
  refine ⟨rfl, ?_, fun s => rfl⟩
  obtain ⟨c, hc⟩ : ∃ c, (L + N - 1) / N = c := ⟨_, rfl⟩
  obtain ⟨Q, hQ⟩ : ∃ Q, c * N = Q := ⟨_, rfl⟩
  have hq : Q ≤ L + N - 1 := by rw [← hQ, ← hc]; exact Nat.div_mul_le_self _ _
  have hq' : L + N - 1 < Q + N := by
    have h := (Nat.div_lt_iff_lt_mul hN0).mp (hc ▸ Nat.lt_succ_self c)
    rwa [Nat.succ_mul, hc, hQ] at h
  have h1 : L ≤ Q := by omega
  have h2 : Q < L + N := by omega
  have hq2 : (c : ℚ) * (N : ℚ) = (Q : ℚ) := by exact_mod_cast hQ
  rw [hc]
  show ⌈(L : ℚ) / (N : ℚ)⌉ = (c : ℤ)
  rw [Int.ceil_eq_iff, Int.cast_natCast]
  constructor
  · rw [lt_div_iff₀ hNQ]
    have hc2 : (Q : ℚ) < (L : ℚ) + (N : ℚ) := by exact_mod_cast h2
    have hexp : ((c : ℚ) - 1) * (N : ℚ) = (c : ℚ) * (N : ℚ) - (N : ℚ) := by ring
    linarith [hq2, hexp, hc2]
  · rw [div_le_iff₀ hNQ]
    have hc1 : (L : ℚ) ≤ (Q : ℚ) := by exact_mod_cast h1
    linarith [hq2, hc1]

/-- Witness for C2 at N = 4, L = 6 (the DDR3 800 MT/s CAS latency). -/
theorem C2_witness :
    get_sys_latency 4 6 = ⌈(6 : ℚ) / (4 : ℚ)⌉ ∧
    get_sys_latency 4 6 = ((6 + 4 - 1) / 4 : ℕ) ∧
    (∀ s : ℤ, get_sys_phases 4 s 6 = ((s * 4 - 6 - 1) % 4, s * 4 - 6)) :=
  C2_latency_planner 4 6 (Or.inr rfl) (by decide)

end ClaimOneTwo

section FlowControl

/-- One synchronous step of the `last_wrdata_en`-style shift register:
`self.sync += reg.eq(Cat(input, reg[:-1]))` — the input enters at bit 0 and
every other bit moves up one position, the top bit falling off.  The
`n_rddata_en` register chain of the read path obeys the same recurrence
(bit `k` during cycle `t+1` equals bit `k-1` during cycle `t`). -/
def shiftStep (st : List Bool) (input : Bool) : List Bool :=
  input :: st.dropLast

/-- State, during system cycle `t`, of a length-`len` shift register that
resets to all zeros and shifts in `input u` during every cycle `u`. -/
def shiftRun (len : ℕ) (input : ℕ → Bool) : ℕ → List Bool
  | 0 => List.replicate len false
  | t + 1 => shiftStep (shiftRun len input t) (input t)

/-- A single-cycle enable pulse during system cycle 0. -/
def pulse (n : ℕ) : Bool := decide (n = 0)

lemma shiftRun_length (len : ℕ) (input : ℕ → Bool) (t : ℕ) (h : 1 ≤ len) :
    (shiftRun len input t).length = len := by
  induction t with
  | zero => simp [shiftRun]
  | succ t ih =>
    simp only [shiftRun, shiftStep, List.length_cons, List.length_dropLast, ih]
    omega

/-- Pulse response of the shift register: bit `k` is set during cycle `k + 1`
exactly. -/
lemma shiftRun_pulse_getD (len k t : ℕ) (hk : k < len) :
    (shiftRun len pulse t).getD k false = decide (t = k + 1) := by
  induction t generalizing k with
  | zero =>
    simp [shiftRun, List.getD_eq_getElem?_getD, List.getElem?_replicate, hk]
  | succ t ih =>
    match k with
    | 0 =>
      rw [shiftRun, shiftStep, List.getD_cons_zero]
      exact decide_eq_decide.mpr (by omega)
    | k + 1 =>
      rw [shiftRun, shiftStep, List.getD_cons_succ]
      have hlen : (shiftRun len pulse t).length = len :=
        shiftRun_length len pulse t (by omega)
      rw [List.getD_eq_getElem?_getD, List.getElem?_dropLast, hlen,
        if_pos (by omega : k < len - 1), ← List.getD_eq_getElem?_getD,
        ih k (by omega)]
      exact decide_eq_decide.mpr (by omega)

/-- The read flow-control path: a chain of `len = read_latency - 1` registers
fed from `dfi.phases[rdphase].rddata_en`, followed by the registered
`rddata_valid` assignment `phase.rddata_valid.eq(rddata_en | wlevel_en)`
(`| wlevel_en` only on the `with_odelay` variant; `wlevel_en = false` models
write-leveling disabled, reducing both variants to the same update).  The
source drives the same value into every phase's `rddata_valid`. -/
def rddata_valid_run (len : ℕ) (wlevel_en : Bool) (input : ℕ → Bool) : ℕ → Bool
  | 0 => false
  | t + 1 => (shiftRun len input t).getD (len - 1) false || wlevel_en

/-- The combinational `oe` of the source, read on the `last_wrdata_en` state:
OR of bits `cwl_sys_latency - 1`, `cwl_sys_latency` and `cwl_sys_latency + 1`
(`wl` abbreviates `write_latency = cwl_sys_latency`; the register has length
`wl + 2`). -/
def oe (wl : ℕ) (st : List Bool) : Bool :=
  st.getD (wl - 1) false || st.getD wl false || st.getD (wl + 1) false

/-- `dqs_sys_latency` exactly as the source computes it for the two memory
families it supports ("DDR2" and "DDR3"; `wodelay` is `with_odelay`). -/
def dqs_sys_latency (memtype : String) (wodelay : Bool) (cwl_sys_latency : ℕ) : ℕ :=
  if memtype = "DDR2" then cwl_sys_latency - 1
  else if wodelay then cwl_sys_latency - 1 else cwl_sys_latency

/-- Combinational `dqs_preamble`:
`last_wrdata_en[dqs_sys_latency-1] & ~last_wrdata_en[dqs_sys_latency]`
(modelled for `dqs_sys_latency ≥ 1`, which every theorem below assumes;
`dqs_sys_latency = 0` would use Python negative indexing). -/
def dqs_preamble (dsl : ℕ) (st : List Bool) : Bool :=
  st.getD (dsl - 1) false && !(st.getD dsl false)

/-- Combinational `dqs_postamble`:
`last_wrdata_en[dqs_sys_latency+1] & ~last_wrdata_en[dqs_sys_latency]`. -/
def dqs_postamble (dsl : ℕ) (st : List Bool) : Bool :=
  st.getD (dsl + 1) false && !(st.getD dsl false)

/-- The preamble condition as the spec sentence words it, for comparison with
the source's `dqs_preamble`: the history bit one position before the asserted
output-enable window (positions `wl-1 .. wl+1`, so position `wl - 2`) set,
while the window's centre bit (position `wl`) is clear. -/
def spec_preamble (wl : ℕ) (st : List Bool) : Bool :=
  st.getD (wl - 2) false && !(st.getD wl false)

lemma decide_and_not_decide (t a b : ℕ) (h : a ≠ b) :
    (decide (t = a) && !(decide (t = b))) = decide (t = a) := by
  by_cases ht : t = a
  · subst ht; simp [h]
  · simp [ht]

end FlowControl

section Bitslip

/-- The guarded `sync` update of `dq_bitslip.value` for one data pin:
`If(dly_sel[i//8], If(rst.re, value.eq(0)).Elif(inc.re, value.eq(value+1)))`.
`value` is the 3-bit register of `BitSlip(8)` (`Signal(max=8)`), so the
increment wraps modulo the window width 8. -/
def bitslip_value_step (sel rst inc : Bool) (value : ℕ) : ℕ :=
  if sel then (if rst then 0 else if inc then (value + 1) % 8 else value)
  else value

/-- One `IDELAYE2` (variable-delay, `i_INC=1`) tap update: `ld` loads the
reset value 0, else `ce` advances the 5-bit tap by one, wrapping. -/
def idelay_tap_step (ld ce : Bool) (tap : ℕ) : ℕ :=
  if ld then 0 else if ce then (tap + 1) % 32 else tap

/-- Per-lane calibration state of one data pin: input-delay tap and bitslip
rotation. -/
structure LaneCal where
  tap : ℕ
  rot : ℕ
  deriving Repr, DecidableEq

/-- Calibration update of every data pin for one system cycle.  Data pin `i`
belongs to byte lane `i / 8`; its input-delay tap is gated by
`i_LD = dly_sel[i//8] & _rdly_dq_rst.re` and
`i_CE = dly_sel[i//8] & _rdly_dq_inc.re`, its bitslip rotation by the guarded
`sync` block keyed on `dly_sel[i//8]`. -/
def cal_step (dly_sel : ℕ → Bool) (rdly_rst rdly_inc bs_rst bs_inc : Bool)
    (st : ℕ → LaneCal) : ℕ → LaneCal :=
  fun i =>
    { tap := idelay_tap_step (dly_sel (i / 8) && rdly_rst)
        (dly_sel (i / 8) && rdly_inc) (st i).tap
      rot := bitslip_value_step (dly_sel (i / 8)) bs_rst bs_inc (st i).rot }

end Bitslip

/-- The DDR3, 4-phase, 100 MHz system clock, 200 MHz iodelay clock reference
configuration: cl = 6, cwl = 5, both system latencies 2, rdphase 2,
wrphase 3, rdcmdphase 1, wrcmdphase 2, read_latency 8, write_latency 2. -/
def ddr3_800_settings : PhySettings :=
  ⟨"DDR3", 4, 2, 3, 1, 2, 6, 5, 8, 2⟩

lemma get_sys_latency_4_6 : get_sys_latency 4 6 = 2 := by
  rw [get_sys_latency, Int.ceil_eq_iff]
  norm_num

lemma get_sys_latency_4_5 : get_sys_latency 4 5 = 2 := by
  rw [get_sys_latency, Int.ceil_eq_iff]
  norm_num

lemma settings_ddr3_800 :
    s7ddrphy_settings "DDR3" 4 100000000 200000000 = some ddr3_800_settings := by
  have h1 : get_cl_cw "DDR3" ((1 : ℚ) / 400000000) = some (6, 5) := by
    norm_num [get_cl_cw, ddr3_table, scan_cl_cwl]
  simp only [s7ddrphy_settings, iodelay_tap_average, get_sys_phases]
  norm_num
  rw [h1]
  norm_num [get_sys_latency_4_6, get_sys_latency_4_5, ddr3_800_settings]

section ClaimThreeFourFive

/-- Claim C3 (amended): A read-data-enable pulse injected on the designated read
phase during system cycle 0 propagates through the chain of
`read_latency - 1` registers and then through the registered `rddata_valid`
assignment, so every phase's `rddata_valid` pulses during cycle
`read_latency` exactly (not `read_latency - 1`): with `len = read_latency - 1`
the valid output is true during cycle `t` iff `t = len + 1 = read_latency`
(write-leveling disabled). -/
theorem C3_read_valid_timing (len : ℕ) (h : 1 ≤ len) (t : ℕ) :
    rddata_valid_run len false pulse t = decide (t = len + 1) := by
  match t with
  | 0 =>
    exact (decide_eq_false (by omega)).symm
  | t + 1 =>
    simp only [rddata_valid_run, Bool.or_false]
    rw [shiftRun_pulse_getD len (len - 1) t (by omega)]
    exact decide_eq_decide.mpr (by omega)

/-- Witness for C3 at the DDR3, 4-phase, 100 MHz configuration, whose
`read_latency` is 8 (`len = 7`). -/
theorem C3_witness : rddata_valid_run 7 false pulse 8 = decide (8 = 7 + 1) :=
  C3_read_valid_timing 7 (by decide) 8

/-- Claim C3 counterexample: At the DDR3, 4-phase, 100 MHz configuration
(`read_latency = 8`), a read-data-enable pulse during cycle 0 does *not*
produce `rddata_valid` during cycle `read_latency - 1 = 7`, as the claim
states; the valid pulse arrives during cycle 8. -/
theorem C3_counterexample :
    (s7ddrphy_settings "DDR3" 4 100000000 200000000).map PhySettings.read_latency
      = some 8 ∧
    rddata_valid_run (8 - 1) false pulse (8 - 1) = false ∧
    rddata_valid_run (8 - 1) false pulse 8 = true := by
  refine ⟨?_, by decide, by decide⟩
  rw [settings_ddr3_800]; rfl

/-- Claim C4 (amended): `oe` is the OR of bits `write_latency - 1`,
`write_latency` and `write_latency + 1` of the length-`write_latency + 2`
write-enable shift register (that is its definition, from the source), and
consequently a write-data-enable flag pulsed during cycle 0 only asserts `oe`
during exactly the 3 consecutive cycles `write_latency`, `write_latency + 1`
and `write_latency + 2` — a window starting at, not centred on,
`write_latency`. -/
theorem C4_oe_window (wl : ℕ) (h : 1 ≤ wl) (t : ℕ) :
    oe wl (shiftRun (wl + 2) pulse t)
      = decide (t = wl ∨ t = wl + 1 ∨ t = wl + 2) := by
  rw [oe, shiftRun_pulse_getD _ _ _ (by omega), shiftRun_pulse_getD _ _ _ (by omega),
    shiftRun_pulse_getD _ _ _ (by omega),
    show wl - 1 + 1 = wl from by omega, Bool.decide_or, Bool.decide_or, Bool.or_assoc]

/-- Witness for C4 at `write_latency = 2` (the DDR3, 4-phase configuration),
evaluated during cycle 2. -/
theorem C4_witness :
    oe 2 (shiftRun (2 + 2) pulse 2) = decide (2 = 2 ∨ 2 = 2 + 1 ∨ 2 = 2 + 2) :=
  C4_oe_window 2 (by decide) 2

/-- Claim C4 counterexample: At the DDR3, 4-phase, 100 MHz configuration
(`write_latency = 2`), a one-cycle write-data-enable pulse during cycle 0
asserts `oe` during cycle 4 = `write_latency + 2` and not during cycle 1 =
`write_latency - 1`, so the 3-cycle window is `{2, 3, 4}`, not a window
centred on `write_latency = 2` (which would be `{1, 2, 3}`). -/
theorem C4_counterexample :
    (s7ddrphy_settings "DDR3" 4 100000000 200000000).map PhySettings.write_latency
      = some 2 ∧
    oe 2 (shiftRun 4 pulse 1) = false ∧
    oe 2 (shiftRun 4 pulse 4) = true := by
  refine ⟨?_, by decide, by decide⟩
  rw [settings_ddr3_800]; rfl

/-- Claim C5 (amended): The strobe preamble is
`last_wrdata_en[dqs_sys_latency - 1] & ~last_wrdata_en[dqs_sys_latency]` and
the postamble is
`last_wrdata_en[dqs_sys_latency + 1] & ~last_wrdata_en[dqs_sys_latency]`,
where `dqs_sys_latency` is `write_latency - 1` (DDR2, or DDR3 with output
delay) or `write_latency` (DDR3 without output delay) — not the claim's
"one position before the window while the window's centre bit
(`write_latency`) is clear".  Behaviour on a single write-enable pulse during
cycle 0: preamble asserts exactly during cycle `dqs_sys_latency` and
postamble exactly during cycle `dqs_sys_latency + 2` (for configurations with
`dqs_sys_latency ≥ 1`). -/
theorem C5_dqs_pre_postamble (memtype : String) (wodelay : Bool) (wl : ℕ)
    (hdsl : 1 ≤ dqs_sys_latency memtype wodelay wl) (t : ℕ) :
    dqs_preamble (dqs_sys_latency memtype wodelay wl) (shiftRun (wl + 2) pulse t)
      = decide (t = dqs_sys_latency memtype wodelay wl) ∧
    dqs_postamble (dqs_sys_latency memtype wodelay wl) (shiftRun (wl + 2) pulse t)
      = decide (t = dqs_sys_latency memtype wodelay wl + 2) := by
  have hle : dqs_sys_latency memtype wodelay wl ≤ wl := by
    unfold dqs_sys_latency
    split
    · omega
    · split <;> omega
  obtain ⟨d, hd⟩ : ∃ d, dqs_sys_latency memtype wodelay wl = d := ⟨_, rfl⟩
  rw [hd] at hle hdsl ⊢
  constructor
  · rw [dqs_preamble, shiftRun_pulse_getD _ _ _ (by omega),
      shiftRun_pulse_getD _ _ _ (by omega), show d - 1 + 1 = d from by omega]
    exact decide_and_not_decide t d (d + 1) (by omega)
  · rw [dqs_postamble, shiftRun_pulse_getD _ _ _ (by omega),
      shiftRun_pulse_getD _ _ _ (by omega)]
    exact decide_and_not_decide t (d + 2) (d + 1) (by omega)

/-- Witness for C5 at the DDR3, `with_odelay`, `write_latency = 2`
configuration (`dqs_sys_latency = 1`), evaluated during cycle 1. -/
theorem C5_witness :
    dqs_preamble (dqs_sys_latency "DDR3" true 2) (shiftRun (2 + 2) pulse 1)
      = decide (1 = dqs_sys_latency "DDR3" true 2) ∧
    dqs_postamble (dqs_sys_latency "DDR3" true 2) (shiftRun (2 + 2) pulse 1)
      = decide (1 = dqs_sys_latency "DDR3" true 2 + 2) :=
  C5_dqs_pre_postamble "DDR3" true 2 (by decide) 1

/-- Claim C5 counterexample: DDR3 with output delay and
`cwl_sys_latency = write_latency = 2` gives `dqs_sys_latency = 1`.  The
reachable `last_wrdata_en` state `[true, true, false, false]` (write-enable
high during cycles 0 and 1, observed during cycle 2) satisfies the claim's
condition — bit one position before the output-enable window
(`write_latency - 2 = 0`) set, centre bit (`write_latency = 2`) clear — yet
the source's `dqs_preamble` is low there, because the source tests bit
`dqs_sys_latency = 1`, not the centre bit. -/
theorem C5_counterexample :
    dqs_sys_latency "DDR3" true 2 = 1 ∧
    shiftRun 4 (fun n => decide (n ≤ 1)) 2 = [true, true, false, false] ∧
    dqs_preamble 1 [true, true, false, false] = false ∧
    spec_preamble 2 [true, true, false, false] = true := by
  refine ⟨by decide, by decide, by decide, by decide⟩

end ClaimThreeFourFive

section ClaimSixSevenTen

/-- Claim C6: For a data pin whose lane is selected, a `bitslip_inc` pulse
increments the stored rotation modulo the window width 8, a `bitslip_reset`
pulse sets it to zero, and a reset followed by 8 increment pulses returns the
rotation to its post-reset value 0. -/
theorem C6_bitslip_cyclic :
    (∀ v : ℕ, bitslip_value_step true false true v = (v + 1) % 8) ∧
    (∀ (inc : Bool) (v : ℕ), bitslip_value_step true true inc v = 0) ∧
    (∀ (inc : Bool) (v : ℕ),
      (bitslip_value_step true false true)^[8] (bitslip_value_step true true inc v)
        = bitslip_value_step true true inc v) := by
  refine ⟨fun v => rfl, fun inc v => rfl, fun inc v => ?_⟩
  show (bitslip_value_step true false true)^[8] 0 = 0
  decide

/-- Claim C10: When the bitslip reset and increment pulses fire in the same
cycle on a selected lane, the reset takes priority: the rotation becomes 0
and the increment is discarded. -/
theorem C10_bitslip_reset_priority (v : ℕ) :
    bitslip_value_step true true true v = 0 := rfl

/-- Claim C7: A tap/bitslip pulse leaves every pin of a masked-off lane
unchanged, applies to every pin of a selected lane, and a masked-off pulse is
dropped, never queued: a later cycle with no pulses changes nothing. -/
theorem C7_lane_isolation (dly_sel : ℕ → Bool) (r1 i1 r2 i2 : Bool)
    (st : ℕ → LaneCal) (i : ℕ) :
    (dly_sel (i / 8) = false → cal_step dly_sel r1 i1 r2 i2 st i = st i) ∧
    (dly_sel (i / 8) = true →
      cal_step dly_sel r1 i1 r2 i2 st i
        = { tap := idelay_tap_step r1 i1 (st i).tap
            rot := bitslip_value_step true r2 i2 (st i).rot }) ∧
    (∀ j : ℕ, cal_step dly_sel false false false false st j = st j) := by
  refine ⟨fun h => ?_, fun h => ?_, fun j => ?_⟩
  · simp [cal_step, h, idelay_tap_step, bitslip_value_step]
  · simp [cal_step, h]
  · simp [cal_step, idelay_tap_step, bitslip_value_step]

/-- Witness for C7: with only lane 0 selected, pin 8 (lane 1) keeps its tap
and rotation across a cycle during which every pulse fires. -/
theorem C7_witness :
    cal_step (fun k => decide (k = 0)) true true true true
      (fun _ => ⟨3, 5⟩) 8 = ⟨3, 5⟩ :=
  (C7_lane_isolation (fun k => decide (k = 0)) true true true true
    (fun _ => ⟨3, 5⟩) 8).1 (by decide)

end ClaimSixSevenTen

section ClaimEightNine

/-- Bounds on the phase pair computed from `get_sys_latency`: the data phase
`⌈L/n⌉*n - L` lies in `[0, n)` and so does the command phase
`(dat_phase - 1) % n`. -/
lemma get_sys_phases_bounds (n L : ℕ) (hn : 1 ≤ n) :
    0 ≤ (get_sys_phases n (get_sys_latency n L) L).1 ∧
    (get_sys_phases n (get_sys_latency n L) L).1 < n ∧
    0 ≤ (get_sys_phases n (get_sys_latency n L) L).2 ∧
    (get_sys_phases n (get_sys_latency n L) L).2 < n := by
  have hn0 : (0 : ℤ) < (n : ℤ) := by exact_mod_cast hn
  have hnQ : (0 : ℚ) < (n : ℚ) := by exact_mod_cast hn
  have h1 : (L : ℤ) ≤ get_sys_latency n L * n := by
    have hc := Int.le_ceil ((L : ℚ) / (n : ℚ))
    rw [div_le_iff₀ hnQ] at hc
    unfold get_sys_latency
    exact_mod_cast hc
  have h2 : get_sys_latency n L * n < L + n := by
    have hc := Int.ceil_lt_add_one ((L : ℚ) / (n : ℚ))
    have hm := mul_lt_mul_of_pos_right hc hnQ
    rw [add_mul, div_mul_cancel₀ _ (ne_of_gt hnQ), one_mul] at hm
    unfold get_sys_latency
    exact_mod_cast hm
  simp only [get_sys_phases]
  exact ⟨Int.emod_nonneg _ (by omega), Int.emod_lt_of_pos _ hn0,
    by linarith, by linarith⟩

/-- Claim C8: Whenever construction succeeds (for any family, phase count
`nphases ≥ 1` and clock frequencies), all four phase indices of the computed
`PhySettings` lie in `[0, nphases)` and `read_latency` and `write_latency`
are non-negative. -/
theorem C8_phase_and_latency_invariants (memtype : String) (nphases : ℕ)
    (sys_clk_freq iodelay_clk_freq : ℚ) (s : PhySettings)
    (hN : 1 ≤ nphases)
    (h : s7ddrphy_settings memtype nphases sys_clk_freq iodelay_clk_freq = some s) :
    (0 ≤ s.rdphase ∧ s.rdphase < nphases) ∧
    (0 ≤ s.wrphase ∧ s.wrphase < nphases) ∧
    (0 ≤ s.rdcmdphase ∧ s.rdcmdphase < nphases) ∧
    (0 ≤ s.wrcmdphase ∧ s.wrcmdphase < nphases) ∧
    0 ≤ s.read_latency ∧ 0 ≤ s.write_latency := by
  simp only [s7ddrphy_settings] at h
  by_cases hA : memtype = "DDR3" ∧ nphases = 2
  · rw [if_pos hA] at h
    exact absurd h (by simp)
  · rw [if_neg hA] at h
    rcases hio : iodelay_tap_average iodelay_clk_freq with _ | tap
    · simp only [hio] at h
      exact Option.noConfusion h
    · simp only [hio] at h
      rcases hcl : get_cl_cw memtype (2 / (2 * nphases * sys_clk_freq)) with _ | p
      · simp only [hcl] at h
        exact Option.noConfusion h
      · obtain ⟨cl, cwl⟩ := p
        simp only [hcl] at h
        obtain rfl := (Option.some_inj.mp h)
        dsimp only
        have hb1 := get_sys_phases_bounds nphases cl hN
        have hb2 := get_sys_phases_bounds nphases cwl hN
        have hcl0 : (0 : ℤ) ≤ get_sys_latency nphases cl :=
          Int.ceil_nonneg (by positivity)
        have hcwl0 : (0 : ℤ) ≤ get_sys_latency nphases cwl :=
          Int.ceil_nonneg (by positivity)
        exact ⟨⟨hb1.2.2.1, hb1.2.2.2⟩, ⟨hb2.2.2.1, hb2.2.2.2⟩,
          ⟨hb1.1, hb1.2.1⟩, ⟨hb2.1, hb2.2.1⟩, by linarith, hcwl0⟩

/-- Witness for C8 at the DDR3, 4-phase, 100 MHz configuration. -/
theorem C8_witness :
    (0 ≤ ddr3_800_settings.rdphase ∧ ddr3_800_settings.rdphase < ((4 : ℕ) : ℤ)) ∧
    (0 ≤ ddr3_800_settings.wrphase ∧ ddr3_800_settings.wrphase < ((4 : ℕ) : ℤ)) ∧
    (0 ≤ ddr3_800_settings.rdcmdphase ∧ ddr3_800_settings.rdcmdphase < ((4 : ℕ) : ℤ)) ∧
    (0 ≤ ddr3_800_settings.wrcmdphase ∧ ddr3_800_settings.wrcmdphase < ((4 : ℕ) : ℤ)) ∧
    0 ≤ ddr3_800_settings.read_latency ∧ 0 ≤ ddr3_800_settings.write_latency :=
  C8_phase_and_latency_invariants "DDR3" 4 100000000 200000000 ddr3_800_settings
    (by decide) settings_ddr3_800

/-- `scan_cl_cwl` fails exactly when every table entry is too fast for the
requested clock period. -/
lemma scan_cl_cwl_eq_none_iff (tck : ℚ) (l : List (ℚ × ℕ × ℕ)) :
    scan_cl_cwl tck l = none ↔ ∀ e ∈ l, tck < 2 / e.1 := by
  induction l with
  | nil => simp [scan_cl_cwl]
  | cons e rest ih =>
    obtain ⟨f, clcwl⟩ := e
    by_cases h : 2 / f ≤ tck
    · simp only [scan_cl_cwl, if_pos h]
      constructor
      · intro hc
        exact absurd hc (by simp)
      · intro hall
        exact absurd (hall _ (List.mem_cons_self _ _)) (not_lt.mpr h)
    · simp only [scan_cl_cwl, if_neg h, ih]
      constructor
      · intro hall e he
        rcases List.mem_cons.mp he with rfl | he'
        · exact not_le.mp h
        · exact hall e he'
      · intro hall e he
        exact hall e (List.mem_cons_of_mem _ he)

/-- `get_cl_cw` fails exactly for an unknown family or a clock period faster
than every entry of the family's table. -/
lemma get_cl_cw_eq_none_iff (memtype : String) (tck : ℚ) :
    get_cl_cw memtype tck = none ↔
      ((memtype ≠ "DDR2" ∧ memtype ≠ "DDR3") ∨
       (memtype = "DDR2" ∧ ∀ e ∈ ddr2_table, tck < 2 / e.1) ∨
       (memtype = "DDR3" ∧ ∀ e ∈ ddr3_table, tck < 2 / e.1)) := by
  have hne : ("DDR2" : String) ≠ "DDR3" := by decide
  unfold get_cl_cw
  by_cases h2 : memtype = "DDR2"
  · simp [h2, hne, scan_cl_cwl_eq_none_iff]
  · by_cases h3 : memtype = "DDR3"
    · simp [h2, h3, hne.symm, scan_cl_cwl_eq_none_iff]
    · simp [h2, h3]

/-- Intermediate: the three `none` sources of the construction model. -/
lemma s7ddrphy_settings_eq_none_iff (memtype : String) (nphases : ℕ)
    (f g : ℚ) :
    s7ddrphy_settings memtype nphases f g = none ↔
      ((memtype = "DDR3" ∧ nphases = 2) ∨ iodelay_tap_average g = none ∨
       get_cl_cw memtype (2 / (2 * nphases * f)) = none) := by
  simp only [s7ddrphy_settings]
  by_cases hA : memtype = "DDR3" ∧ nphases = 2
  · simp [hA]
  · rw [if_neg hA]
    rcases hio : iodelay_tap_average g with _ | tap
    · simp [hio, hA]
    · rcases hcl : get_cl_cw memtype (2 / (2 * nphases * f)) with _ | p
      · simp [hio, hcl, hA]
      · obtain ⟨cl, cwl⟩ := p
        simp [hio, hcl, hA]

/-- Claim C9 (amended): Construction fails exactly in these configuration
cases: unknown memory family; no timing-table entry of the family satisfies
the clock period (`tck < 2/f` for every table frequency `f`); family DDR3
with phase count 2; or — the case the claim omits — an `iodelay_clk_freq`
outside {200 MHz, 300 MHz, 400 MHz} (a `KeyError` on the
`iodelay_tap_average` dict). -/
theorem C9_failure_cases_exactly (memtype : String) (nphases : ℕ) (f g : ℚ) :
    s7ddrphy_settings memtype nphases f g = none ↔
      ((memtype ≠ "DDR2" ∧ memtype ≠ "DDR3") ∨
       (memtype = "DDR2" ∧ ∀ e ∈ ddr2_table, 2 / (2 * nphases * f) < 2 / e.1) ∨
       (memtype = "DDR3" ∧ ∀ e ∈ ddr3_table, 2 / (2 * nphases * f) < 2 / e.1) ∨
       (memtype = "DDR3" ∧ nphases = 2) ∨
       iodelay_tap_average g = none) := by
  rw [s7ddrphy_settings_eq_none_iff, get_cl_cw_eq_none_iff]
  tauto

/-- Claim C9 counterexample: DDR3, 4 phases, 100 MHz system clock but a 250 MHz
iodelay reference clock: none of the claim's three failure cases holds — the
family is DDR3, a table entry satisfies the period (`get_cl_cw` succeeds with
(6, 5)), and the phase count is not 2 — yet construction fails. -/
theorem C9_counterexample :
    s7ddrphy_settings "DDR3" 4 100000000 250000000 = none ∧
    get_cl_cw "DDR3" (2 / (2 * ((4 : ℕ) : ℚ) * 100000000)) = some (6, 5) ∧
    (4 : ℕ) ≠ 2 := by
  refine ⟨?_, by norm_num [get_cl_cw, ddr3_table, scan_cl_cwl], by decide⟩
  rw [s7ddrphy_settings_eq_none_iff]
  right; left
  norm_num [iodelay_tap_average]

end ClaimEightNine
